import Mathlib

/-!
# Verification of the CEZ PND data addon core

Shallow embedding of the addon's core modules and proofs of the spec's
claims about them:

* `addon/src/hdo_parser.py` — tariff-window parsing and evaluation,
* `addon/src/parser.py` — Czech timestamp parsing,
* `addon/src/session_manager.py` — session persistence and expiry,
* `addon/src/auth.py` — session reuse vs. re-login,
* `addon/src/orchestrator.py` — the six-report fetch loop and retry helper.

Modelling conventions:

* Python exceptions are modelled by the `Except PyExc` monad; a function
  that can raise returns `Except PyExc α`, and raising is `.error`.
* Instants are integers (epoch seconds); times of day are natural-number
  seconds since midnight (Python `time` objects compare lexicographically
  by (hour, minute, second), which coincides with second counts).
* JSON values (`dict[str, Any]` payloads) are the inductive `Json`;
  Python truthiness is `pyTruthy`; numbers are modelled as integers.
* `\d` in the `strptime` patterns is modelled as an ASCII digit.
-/

/-- Python exception kinds relevant to the embedded code. -/
inductive PyExc where
  | sessionExpired
  | fetchError
  | valueError
  | attributeError
  | overflowError
  | indexError
  | unicodeDecodeError
deriving DecidableEq, Repr

/-- JSON values as produced by `json.load`; numbers modelled as integers. -/
inductive Json where
  | null
  | bool (b : Bool)
  | num (n : Int)
  | str (s : String)
  | arr (xs : List Json)
  | obj (kvs : List (String × Json))
deriving Repr

/-- First value bound to key `k` (Python dict keys are unique). -/
def jsonLookup (kvs : List (String × Json)) (k : String) : Option Json :=
  match kvs with
  | [] => none
  | (k1, v) :: rest => if k1 = k then some v else jsonLookup rest k

/-- Python truthiness of a JSON value (`None`, `False`, `0`, `""`, `[]`,
`{}` are falsy). -/
def pyTruthy (j : Json) : Bool :=
  match j with
  | .null => false
  | .bool b => b
  | .num n => n != 0
  | .str s => s != ""
  | .arr xs => !xs.isEmpty
  | .obj kvs => !kvs.isEmpty

/-- Embedding of `payload.get(k, dflt)`: defaulting key lookup on a dict; raises
`AttributeError` on a non-dict, as Python does. -/
def pyGet (j : Json) (k : String) (dflt : Json) : Except PyExc Json :=
  match j with
  | .obj kvs => .ok ((jsonLookup kvs k).getD dflt)
  | _ => .error .attributeError

/-! ## Calendar arithmetic (for `datetime` construction and `timedelta`) -/

/-- Gregorian leap year, as `datetime` uses. -/
def isLeap (y : Nat) : Bool :=
  y % 4 = 0 ∧ (y % 100 ≠ 0 ∨ y % 400 = 0)

/-- Days in a month (month 1–12). -/
def daysInMonth (y m : Nat) : Nat :=
  if m = 2 then (if isLeap y then 29 else 28)
  else if m = 4 ∨ m = 6 ∨ m = 9 ∨ m = 11 then 30
  else 31

/-- A calendar date. -/
structure Date where
  year : Nat
  month : Nat
  day : Nat
deriving DecidableEq, Repr

/-- Whether `datetime(year, month, day)` succeeds (`MINYEAR = 1`,
`MAXYEAR = 9999`). -/
def validDate (y m d : Nat) : Bool :=
  1 ≤ y ∧ y ≤ 9999 ∧ 1 ≤ m ∧ m ≤ 12 ∧ 1 ≤ d ∧ d ≤ daysInMonth y m

/-- The day after a (valid) date; `timedelta(days=1)` addition. -/
def nextDay (d : Date) : Date :=
  if d.day < daysInMonth d.year d.month then ⟨d.year, d.month, d.day + 1⟩
  else if d.month < 12 then ⟨d.year, d.month + 1, 1⟩
  else ⟨d.year + 1, 1, 1⟩

/-- The day before a (valid) date; `timedelta(days=1)` subtraction. -/
def prevDay (d : Date) : Date :=
  if 1 < d.day then ⟨d.year, d.month, d.day - 1⟩
  else if 1 < d.month then ⟨d.year, d.month - 1, daysInMonth d.year (d.month - 1)⟩
  else ⟨d.year - 1, 12, 31⟩

/-- Zero-pad to two digits, as `strftime` field formatting does. -/
def pad2 (n : Nat) : String :=
  if n < 10 then "0" ++ toString n else toString n

/-- Zero-pad to four digits. -/
def pad4 (n : Nat) : String :=
  if n < 10 then "000" ++ toString n
  else if n < 100 then "00" ++ toString n
  else if n < 1000 then "0" ++ toString n
  else toString n

/-- Embedding of `date.strftime("%d.%m.%Y")`. -/
def fmtDMY (d : Date) : String :=
  pad2 d.day ++ "." ++ pad2 d.month ++ "." ++ pad4 d.year

/-! ## `strptime` pattern fragments

Python's `strptime` compiles each directive to a regex alternation and
requires the whole input to be consumed.  Each `xxxAlts` function lists
the ways the directive can consume a prefix of the input, in the regex's
alternation order; the caller backtracks through them. -/

/-- Numeric value of an ASCII digit. -/
def digitVal (c : Char) : Nat := c.toNat - 48

/-- Python `str.strip()` on a character list: drop leading and trailing
whitespace. -/
def pyStripList (cs : List Char) : List Char :=
  ((cs.dropWhile Char.isWhitespace).reverse.dropWhile Char.isWhitespace).reverse

/-- Python `str.strip()`. -/
def pyStrip (s : String) : String := ⟨pyStripList s.data⟩

/-- Split a character list at every character satisfying `p`, keeping
empty pieces (the behaviour of `str.split(sep)` for a one-character
separator when `p` tests for that character). -/
def splitPredList (p : Char → Bool) : List Char → List (List Char)
  | [] => [[]]
  | x :: rest =>
    let r := splitPredList p rest
    if p x then [] :: r
    else
      match r with
      | h :: t => (x :: h) :: t
      | [] => [[x]]

/-- Python `s.split(c)` for a one-character separator `c`. -/
def pySplitChar (s : String) (c : Char) : List String :=
  (splitPredList (fun x => x = c) s.data).map fun l => (⟨l⟩ : String)

/-- Directive `%H` = `2[0-3] | [0-1]\d | \d`. -/
def hourAlts (cs : List Char) : List (Nat × List Char) :=
  (match cs with
   | '2' :: d :: rest =>
     if '0' ≤ d ∧ d ≤ '3' then [(20 + digitVal d, rest)] else []
   | _ => []) ++
  (match cs with
   | a :: d :: rest =>
     if (a = '0' ∨ a = '1') ∧ d.isDigit then [(digitVal a * 10 + digitVal d, rest)] else []
   | _ => []) ++
  (match cs with
   | d :: rest => if d.isDigit then [(digitVal d, rest)] else []
   | _ => [])

/-- Directive `%M` = `[0-5]\d | \d`. -/
def minuteAlts (cs : List Char) : List (Nat × List Char) :=
  (match cs with
   | a :: d :: rest =>
     if ('0' ≤ a ∧ a ≤ '5') ∧ d.isDigit then [(digitVal a * 10 + digitVal d, rest)] else []
   | _ => []) ++
  (match cs with
   | d :: rest => if d.isDigit then [(digitVal d, rest)] else []
   | _ => [])

/-- Embedding of `datetime.strptime(s, "%H:%M")`, as hour and minute; `none` models a
raised `ValueError` (no match, or unconverted data remaining). -/
def parseHM (s : String) : Option (Nat × Nat) :=
  (hourAlts s.data).findSome? fun hr =>
    match hr.2 with
    | ':' :: r2 =>
      (minuteAlts r2).findSome? fun mr =>
        if mr.2 = [] then some (hr.1, mr.1) else none
    | _ => none

/-- Directive `%d` = `3[01] | [0-2]\d | \d`. -/
def dayAlts (cs : List Char) : List (Nat × List Char) :=
  (match cs with
   | '3' :: d :: rest =>
     if d = '0' ∨ d = '1' then [(30 + digitVal d, rest)] else []
   | _ => []) ++
  (match cs with
   | a :: d :: rest =>
     if ('0' ≤ a ∧ a ≤ '2') ∧ d.isDigit then [(digitVal a * 10 + digitVal d, rest)] else []
   | _ => []) ++
  (match cs with
   | d :: rest => if d.isDigit then [(digitVal d, rest)] else []
   | _ => [])

/-- Directive `%m` = `1[0-2] | 0\d | \d`. -/
def monthAlts (cs : List Char) : List (Nat × List Char) :=
  (match cs with
   | '1' :: d :: rest =>
     if '0' ≤ d ∧ d ≤ '2' then [(10 + digitVal d, rest)] else []
   | _ => []) ++
  (match cs with
   | '0' :: d :: rest => if d.isDigit then [(digitVal d, rest)] else []
   | _ => []) ++
  (match cs with
   | d :: rest => if d.isDigit then [(digitVal d, rest)] else []
   | _ => [])

/-- Directive `%Y` = `\d\d\d\d`. -/
def year4 (cs : List Char) : Option (Nat × List Char) :=
  match cs with
  | a :: b :: c :: d :: rest =>
    if a.isDigit ∧ b.isDigit ∧ c.isDigit ∧ d.isDigit then
      some (digitVal a * 1000 + digitVal b * 100 + digitVal c * 10 + digitVal d, rest)
    else none
  | _ => none

/-- The regex part of `strptime(s, "%d.%m.%Y")`: day, month, year with
the whole input consumed; calendar validity is checked by the caller. -/
def regexDMY (s : String) : Option (Nat × Nat × Nat) :=
  (dayAlts s.data).findSome? fun dr =>
    match dr.2 with
    | '.' :: r2 =>
      (monthAlts r2).findSome? fun mr =>
        match mr.2 with
        | '.' :: r4 =>
          match year4 r4 with
          | some (y, []) => some (dr.1, mr.1, y)
          | _ => none
        | _ => none
    | _ => none

/-- Embedding of `datetime.strptime(s, "%d.%m.%Y")` as a date; `none` models a raised
`ValueError` (either no regex match or an impossible calendar date). -/
def parseDMY (s : String) : Option Date :=
  match regexDMY s with
  | some (d, m, y) => if validDate y m d then some ⟨y, m, d⟩ else none
  | none => none

/-! ## `parser.py` — `parse_czech_timestamp` -/

/-- A naive `datetime` value (year, month, day, hour, minute). -/
structure PyDateTime where
  year : Nat
  month : Nat
  day : Nat
  hour : Nat
  minute : Nat
deriving DecidableEq, Repr

/-- The regex `^(\d{2})\.(\d{2})\.(\d{4})\s+(\d{2}):(\d{2})$` applied to
an already-stripped string: fixed-width digit groups with `\s+` between
date and time. -/
def matchTimestamp (cs : List Char) : Option (Nat × Nat × Nat × Nat × Nat) :=
  match cs with
  | d1 :: d2 :: '.' :: m1 :: m2 :: '.' :: y1 :: y2 :: y3 :: y4 :: rest =>
    if d1.isDigit ∧ d2.isDigit ∧ m1.isDigit ∧ m2.isDigit ∧
       y1.isDigit ∧ y2.isDigit ∧ y3.isDigit ∧ y4.isDigit then
      let day := digitVal d1 * 10 + digitVal d2
      let mon := digitVal m1 * 10 + digitVal m2
      let yr := digitVal y1 * 1000 + digitVal y2 * 100 + digitVal y3 * 10 + digitVal y4
      matchTimestampTime rest day mon yr true
    else none
  | _ => none
where
  /-- Consume `\s+` then `(\d{2}):(\d{2})$`; `needWs` tracks whether at
  least one whitespace character is still required. -/
  matchTimestampTime : List Char → Nat → Nat → Nat → Bool → Option (Nat × Nat × Nat × Nat × Nat)
  | c :: rest, day, mon, yr, needWs =>
    if c.isWhitespace then matchTimestampTime rest day mon yr false
    else if needWs then none
    else
      match c :: rest with
      | h1 :: h2 :: ':' :: n1 :: n2 :: [] =>
        if h1.isDigit ∧ h2.isDigit ∧ n1.isDigit ∧ n2.isDigit then
          some (day, mon, yr, digitVal h1 * 10 + digitVal h2, digitVal n1 * 10 + digitVal n2)
        else none
      | _ => none
  | [], _, _, _, _ => none

/-- Embedding of `parse_czech_timestamp` from `addon/src/parser.py`.  `.ok none`
models a `None` return; `.error` models an uncaught exception.  In the
hour-24 branch the source constructs `datetime(year, month, day)` and
adds one day *outside* any `try`, so an impossible date raises
`ValueError` and the 9999-12-31 edge raises `OverflowError`; in the
ordinary branch `datetime(...)` is wrapped in `try/except ValueError`. -/
def parse_czech_timestamp (value : Option String) : Except PyExc (Option PyDateTime) :=
  match value with
  | none => .ok none
  | some v =>
    if v = "" then .ok none
    else
      match matchTimestamp (pyStripList v.data) with
      | none => .ok none
      | some (day, mon, yr, hour, minute) =>
        if hour = 24 ∧ minute = 0 then
          if validDate yr mon day then
            if yr = 9999 ∧ mon = 12 ∧ day = 31 then .error .overflowError
            else
              let nd := nextDay ⟨yr, mon, day⟩
              .ok (some ⟨nd.year, nd.month, nd.day, 0, 0⟩)
          else .error .valueError
        else
          if validDate yr mon day ∧ hour ≤ 23 ∧ minute ≤ 59 then
            .ok (some ⟨yr, mon, day, hour, minute⟩)
          else .ok none

/-! ## `hdo_parser.py` — tariff schedule parsing and evaluation -/

/-- Split a string at the first occurrence of `c`
(Python `s.split(c, 1)` when `c` occurs in `s`). -/
def splitOnceAux (c : Char) : List Char → List Char × List Char
  | [] => ([], [])
  | x :: rest =>
    if x = c then ([], rest)
    else
      let (l, r) := splitOnceAux c rest
      (x :: l, r)

/-- Embedding of `s.split(c, 1)` as the pair (before first `c`, after first `c`). -/
def splitOnce (s : String) (c : Char) : String × String :=
  let (l, r) := splitOnceAux c s.data
  (⟨l⟩, ⟨r⟩)

/-- Embedding of `_parse_time_ranges` from `addon/src/hdo_parser.py`: split on `;`,
trim, skip empties and segments without a dash, split each remaining
segment at the first dash. -/
def parse_time_ranges (casy : String) : List (String × String) :=
  (pySplitChar casy ';').filterMap fun part =>
    let part := pyStrip part
    if part = "" then none
    else if ¬ part.data.contains '-' then none
    else
      let (s, e) := splitOnce part '-'
      some (pyStrip s, pyStrip e)

/-- Embedding of `_time_from_str`: `"24:00"` is special-cased to midnight, all else
goes through `strptime("%H:%M")`; `none` models a raised `ValueError`.
Times of day are second counts (`time(h, m)` is `h*3600 + m*60`). -/
def time_from_str (s : String) : Option Nat :=
  if s = "24:00" then some 0
  else (parseHM s).map fun hm => hm.1 * 3600 + hm.2 * 60

/-- Embedding of `_is_in_low_tariff`: walk the windows in order; parse both endpoints
(raising `ValueError` on a malformed one), return true on the first
match. -/
def is_in_low_tariff (nowTime : Nat) : List (String × String) → Except PyExc Bool
  | [] => .ok false
  | (startS, endS) :: rest =>
    match time_from_str startS, time_from_str endS with
    | some start, some «end» =>
      if «end» = 0 ∧ start ≠ 0 then
        if nowTime ≥ start then .ok true else is_in_low_tariff nowTime rest
      else if start ≤ nowTime ∧ nowTime < «end» then .ok true
      else is_in_low_tariff nowTime rest
    | none, _ => .error .valueError
    | some _, none => .error .valueError

/-- The boundary-collection loop of `_find_next_switch`: every window's
start, plus its end when the end is not midnight; parse failures raise
`ValueError`. -/
def collectBoundaries : List (String × String) → Except PyExc (List Nat)
  | [] => .ok []
  | (startS, endS) :: rest =>
    match time_from_str startS, time_from_str endS with
    | some start, some «end» =>
      (collectBoundaries rest).map fun bs =>
        if «end» ≠ 0 then start :: «end» :: bs else start :: bs
    | none, _ => .error .valueError
    | some _, none => .error .valueError

/-- Embedding of `_find_next_switch`: sort the boundaries, return the first one
strictly after now's time of day (on today), else the earliest boundary
tomorrow, else midnight tomorrow.  Days are numbered by an integer
index; a result is (day index, second of day). -/
def find_next_switch (day : Int) (nowTod : Nat) (ranges : List (String × String)) :
    Except PyExc (Int × Nat) :=
  match collectBoundaries ranges with
  | .error e => .error e
  | .ok bs =>
    let sorted := bs.insertionSort (· ≤ ·)
    match sorted.find? (fun b => nowTod < b) with
    | some b => .ok (day, b)
    | none =>
      match sorted with
      | [] => .ok (day + 1, 0)
      | b :: _ => .ok (day + 1, b)

/-- One entry of the DIP `signals` list; `.get` defaults are applied at
use sites (`none` models an absent key). -/
structure SignalEntry where
  signal : Option String
  casy : Option String
deriving Repr

/-- The `signals_data` argument of `parse_hdo_signals`; `none` models an
absent `signals` key. -/
structure SignalsData where
  signals : Option (List SignalEntry)
deriving Repr

/-- The parsed result of `parse_hdo_signals`. -/
structure HdoData where
  is_low_tariff : Bool
  next_switch : Int × Nat
  today_schedule : List (String × String)
  signal_name : String
deriving Repr

/-- Embedding of `parse_hdo_signals` from `addon/src/hdo_parser.py`, with `now` given
as a (day index, second of day) pair. -/
def parse_hdo_signals (d : SignalsData) (day : Int) (nowTod : Nat) : Except PyExc HdoData :=
  match d.signals with
  | none => .error .valueError
  | some [] => .error .valueError
  | some (sig :: _) =>
    let signalName := sig.signal.getD ""
    let casy := sig.casy.getD ""
    if casy = "" then .error .valueError
    else
      let schedule := parse_time_ranges casy
      match is_in_low_tariff nowTod schedule with
      | .error e => .error e
      | .ok isLow =>
        match find_next_switch day nowTod schedule with
        | .error e => .error e
        | .ok ns => .ok ⟨isLow, ns, schedule, signalName⟩

/-! ## `session_manager.py` — `SessionStore` -/

/-- Persisted session state (`SessionState` dataclass).  Cookies are the
raw JSON values the store was given; instants are epoch seconds. -/
structure SessionState where
  cookies : List Json
  created_at : Int
  expires_at : Option Int
deriving Repr

/-- The cookie-expiry scan of `_compute_expiry`: for each cookie dict,
keep its `expires` value when it is a positive number (`bool` is an
`int` subclass in Python, so `True` counts as `1`); a non-dict cookie
raises `AttributeError` at `cookie.get`. -/
def cookieExpiries : List Json → Except PyExc (List Int)
  | [] => .ok []
  | c :: rest =>
    match c with
    | .obj kvs =>
      let keep : Option Int :=
        match (jsonLookup kvs "expires").getD .null with
        | .num n => if n > 0 then some n else none
        | .bool b => if b then some 1 else none
        | _ => none
      (cookieExpiries rest).map fun es =>
        match keep with
        | some v => v :: es
        | none => es
    | _ => .error .attributeError

/-- Embedding of `SessionStore._compute_expiry`: the minimum positive cookie expiry,
or `created_at + ttl` when no cookie carries one. -/
def compute_expiry (ttl : Int) (cookies : List Json) (created_at : Int) : Except PyExc Int :=
  (cookieExpiries cookies).map fun es =>
    match es.min? with
    | some m => m
    | none => created_at + ttl

/-- Embedding of `SessionStore.save`: computes the expiry, persists the triple
`{cookies, created_at, expires_at}` verbatim and returns it as the new
state (the written JSON carries exactly these fields). -/
def SessionStore.save (ttl : Int) (cookies : List Json) (now : Int) :
    Except PyExc SessionState :=
  (compute_expiry ttl cookies now).map fun e => ⟨cookies, now, some e⟩

/-- Embedding of `SessionStore.is_expired`. -/
def is_expired (ttl : Int) (state : SessionState) (now : Int) : Bool :=
  match state.expires_at with
  | some e => decide (now ≥ e)
  | none => decide (now ≥ state.created_at + ttl)

/-- Embedding of `SessionStore._parse_datetime`, with `datetime.fromisoformat`
abstracted as `fromIso` (total into `Option` via the `try/except
ValueError`; timezone normalisation is folded into the instant). -/
def parse_datetime (fromIso : String → Option Int) (v : Option Json) : Option Int :=
  match v with
  | none => none
  | some j =>
    if pyTruthy j then
      match j with
      | .str s => fromIso s
      | _ => none
    else none

/-- What reading the persisted session file can yield: the file is
missing, opening/reading raises `OSError`, the file's bytes decode as
text but `json.load` raises `JSONDecodeError`, the file's bytes are not
valid UTF-8 so reading inside `json.load` raises `UnicodeDecodeError`
(a `ValueError` that is neither a `JSONDecodeError` nor an `OSError`),
or a JSON value is decoded. -/
inductive FileRead where
  | missing
  | ioError
  | decodeError
  | invalidUtf8
  | content (j : Json)

/-- Embedding of `SessionStore.load`: the `except` clause catches only
`JSONDecodeError` and `OSError`, so the `UnicodeDecodeError` raised when
the file's bytes are not valid UTF-8 propagates; and the subsequent
`payload.get` calls assume a dict, so a decoded non-object payload
raises `AttributeError`. -/
def SessionStore.load (fromIso : String → Option Int) (file : FileRead) :
    Except PyExc (Option SessionState) :=
  match file with
  | .missing => .ok none
  | .ioError => .ok none
  | .decodeError => .ok none
  | .invalidUtf8 => .error .unicodeDecodeError
  | .content j =>
    match j with
    | .obj kvs =>
      let cookies := jsonLookup kvs "cookies"
      let created := parse_datetime fromIso (jsonLookup kvs "created_at")
      let expires := parse_datetime fromIso (jsonLookup kvs "expires_at")
      match cookies, created with
      | some (.arr cs), some ca => .ok (some ⟨cs, ca, expires⟩)
      | _, _ => .ok none
    | _ => .error .attributeError

/-! ## `auth.py` — `PlaywrightAuthClient.ensure_session` -/

/-- The runtime session (`AuthSession` dataclass); `hasContext` models
`context is not None and not context.closed`. -/
structure AuthSession where
  cookies : List Json
  reused : Bool
  hasContext : Bool
deriving Repr

/-- Embedding of `PlaywrightAuthClient.ensure_session`.  `stored` is `load()`'s
result, `liveOpen` is whether the store holds an open live browser
context, and `loginResult` is what the login collaborator would return.
The returned flag records whether the login collaborator ran (on that
path the source also fetches credentials and calls `save`; those
collaborator effects are not needed by the claims). -/
def ensure_session (ttl now : Int) (stored : Option SessionState) (liveOpen : Bool)
    (loginResult : AuthSession) : Bool × AuthSession :=
  match stored with
  | some state =>
    if ¬ is_expired ttl state now then
      if liveOpen then (false, ⟨state.cookies, true, true⟩)
      else (true, loginResult)
    else (true, loginResult)
  | none => (true, loginResult)

/-! ## `orchestrator.py` — the six-report fetch loop and retry helper -/

/-- One entry of `ASSEMBLY_CONFIGS`. -/
structure AssemblyConfig where
  id : Int
  name : String
  fallback_yesterday : Bool
deriving DecidableEq, Repr

/-- The six fixed report descriptors, in source order; only
`daily_registers` carries the yesterday-fallback flag. -/
def ASSEMBLY_CONFIGS : List AssemblyConfig :=
  [⟨-1003, "profile_all", false⟩,
   ⟨-1012, "profile_consumption_reactive", false⟩,
   ⟨-1011, "profile_production_reactive", false⟩,
   ⟨-1021, "daily_consumption", false⟩,
   ⟨-1022, "daily_production", false⟩,
   ⟨-1027, "daily_registers", true⟩]

/-- The per-report fetch collaborator: assembly id, date-from, date-to
to either a payload or a raised exception. -/
abbrev Fetcher := Int → String → String → Except PyExc Json

/-- A record of one invocation of the fetch collaborator. -/
structure FetchCall where
  assemblyId : Int
  dateFrom : String
  dateTo : String
deriving DecidableEq, Repr

/-- Python `str.split()` with no argument: split on whitespace runs,
discarding empty pieces. -/
def pySplitWs (s : String) : List String :=
  ((splitPredList Char.isWhitespace s.data).map fun l => (⟨l⟩ : String)).filter
    fun w => w ≠ ""

/-- Embedding of `Orchestrator._fetch_assembly_with_fallback` (via `_fetch_assembly`,
which just forwards to the fetcher).  Returns the outcome together with
the list of fetch invocations made.  For a fallback-flagged config whose
first payload is a dict without truthy `hasData`, yesterday's window is
fetched instead: `date_from.split()[0]` re-parsed with
`strptime("%d.%m.%Y")`, minus one day. -/
def fetch_assembly_with_fallback (fetch : Fetcher) (cfg : AssemblyConfig) (df dt : String) :
    Except PyExc Json × List FetchCall :=
  let call1 : FetchCall := ⟨cfg.id, df, dt⟩
  match fetch cfg.id df dt with
  | .error e => (.error e, [call1])
  | .ok payload =>
    match payload with
    | .null => (.ok .null, [call1])
    | _ =>
      if cfg.fallback_yesterday then
        match pyGet payload "hasData" (.bool true) with
        | .error e => (.error e, [call1])
        | .ok hd =>
          if pyTruthy hd then (.ok payload, [call1])
          else
            match (pySplitWs df).head? with
            | none => (.error .indexError, [call1])
            | some w =>
              match parseDMY w with
              | none => (.error .valueError, [call1])
              | some dateObj =>
                if dateObj = ⟨1, 1, 1⟩ then (.error .overflowError, [call1])
                else
                  let ydf := fmtDMY (prevDay dateObj)
                  (fetch cfg.id ydf df, [call1, ⟨cfg.id, ydf, df⟩])
      else (.ok payload, [call1])

/-- The inclusion test of the fetch loop:
`if payload and payload.get("hasData")`.  A truthy non-dict payload
raises `AttributeError` at `.get` (caught by the loop's handler). -/
def includePayload (payload : Json) : Except PyExc Bool :=
  if ¬ pyTruthy payload then .ok false
  else
    match payload with
    | .obj kvs => .ok (pyTruthy ((jsonLookup kvs "hasData").getD .null))
    | _ => .error .attributeError

/-- Today's `date_from` string, `today.strftime("%d.%m.%Y 00:00")`. -/
def dateFromOf (today : Date) : String := fmtDMY today ++ " 00:00"

/-- Today's `date_to` string, `today.strftime("%d.%m.%Y 23:59")`. -/
def dateToOf (today : Date) : String := fmtDMY today ++ " 23:59"

/-- One iteration of the fetch loop for one config: any raised exception
(`except Exception`) is caught and yields no entry; a payload is entered
under the config's name only when `includePayload` says so. -/
def fetchStep (fetch : Fetcher) (df dt : String) (cfg : AssemblyConfig) :
    Option (String × Json) × List FetchCall :=
  match fetch_assembly_with_fallback fetch cfg df dt with
  | (.error _, calls) => (none, calls)
  | (.ok payload, calls) =>
    match includePayload payload with
    | .error _ => (none, calls)
    | .ok true => (some (cfg.name, payload), calls)
    | .ok false => (none, calls)

/-- Embedding of `Orchestrator._fetch_all_assemblies` (the general per-assembly loop;
the `fetch_all` batch shortcut applies only to fetchers that are bound
methods of an object exposing `fetch_all` and is outside this model).
Iterations are independent, so the result dict built up by the loop is
the in-order `filterMap` of the per-config steps (config names are
pairwise distinct), and the fetch invocations are their concatenation. -/
def fetch_all_assemblies (fetch : Fetcher) (today : Date) :
    List (String × Json) × List FetchCall :=
  let df := dateFromOf today
  let dt := dateToOf today
  (ASSEMBLY_CONFIGS.filterMap fun cfg => (fetchStep fetch df dt cfg).1,
   ASSEMBLY_CONFIGS.flatMap fun cfg => (fetchStep fetch df dt cfg).2)

/-- Replace every exception a fetcher raises — including the distinct
session-expired one — by the generic fetch failure. -/
def maskErrors (fetch : Fetcher) : Fetcher := fun a df dt =>
  match fetch a df dt with
  | .ok p => .ok p
  | .error _ => .error .fetchError

/-- The attempt loop of `Orchestrator._fetch_with_retry`: `fetch` maps
the 1-based attempt number to that attempt's outcome; `onExpired` is the
(result, further-attempt-count) continuation taken when an attempt
raises the session-expired error; `fuel` is the number of loop
iterations remaining.  Returns the result (`none` models returning
`None` after exhaustion or a failed recovery) and the number of fetch
invocations made. -/
def retryFrom (fetch : Nat → Except PyExc Json) (onExpired : Option Json × Nat) :
    Nat → Nat → Option Json × Nat
  | _, 0 => (none, 0)
  | attempt, fuel + 1 =>
    match fetch attempt with
    | .ok p => (some p, 1)
    | .error .sessionExpired => (onExpired.1, onExpired.2 + 1)
    | .error _ =>
      let r := retryFrom fetch onExpired (attempt + 1) fuel
      (r.1, r.2 + 1)

/-- Embedding of `Orchestrator._fetch_with_retry`: up to `maxRetries` attempts with
`fetch`; on a session-expired error, re-authenticate once (`reauthOk`;
on failure return `None`) and rerun the loop with `fetch2` (the
post-re-auth cookies), where a further session-expired error returns
`None` immediately.  The exponential-backoff sleeps between attempts are
real-time behaviour and are not modelled. -/
def fetch_with_retry (maxRetries : Nat) (fetch fetch2 : Nat → Except PyExc Json)
    (reauthOk : Bool) : Option Json × Nat :=
  let inner := retryFrom fetch2 (none, 0) 1 maxRetries
  retryFrom fetch (if reauthOk then inner else (none, 0)) 1 maxRetries

/-- The retry-relevant part of `OrchestratorConfig` (delay fields are
floats driving sleeps and are not modelled). -/
structure OrchestratorConfig where
  poll_interval_seconds : Nat := 900
  max_retries : Nat := 3
deriving Repr

/-- How many of the recorded fetch invocations targeted one assembly. -/
def callCount (aid : Int) (calls : List FetchCall) : Nat :=
  (calls.filter fun c => decide (c.assemblyId = aid)).length

/-! ## Spec-side definitions (for comparison with the code) -/

/-- The low-tariff predicate as the spec's claim words it: `nowTod` lies
in `[start, end)` of some window, except that a window whose end is the
midnight sentinel `24:00` is treated as `[start, end-of-day]`
inclusive. -/
def claimIsLowTariff (nowTod : Nat) (ranges : List (String × String)) : Bool :=
  ranges.any fun r =>
    match time_from_str r.1, time_from_str r.2 with
    | some s, some e =>
      if r.2 = "24:00" then decide (s ≤ nowTod)
      else decide (s ≤ nowTod ∧ nowTod < e)
    | _, _ => false

/-- The boundary set of a parsed schedule, as the spec describes it:
every window's start, plus every window's end that is not midnight. -/
def boundariesSpec (parsed : List (Nat × Nat)) : List Nat :=
  parsed.flatMap fun q => if q.2 ≠ 0 then [q.1, q.2] else [q.1]

/-- The per-window test `_is_in_low_tariff` applies, over parsed
endpoints: the sentinel branch when the end is midnight and the start is
not, the half-open interval otherwise. -/
def windowHit (nowTod : Nat) (q : Nat × Nat) : Bool :=
  if q.2 = 0 ∧ q.1 ≠ 0 then decide (q.1 ≤ nowTod)
  else decide (q.1 ≤ nowTod ∧ nowTod < q.2)

/-- The pointwise schedule-parses hypothesis: each window's endpoint
strings parse to the given second counts. -/
def ParsesTo (ranges : List (String × String)) (parsed : List (Nat × Nat)) : Prop :=
  List.Forall₂ (fun r q => time_from_str r.1 = some q.1 ∧ time_from_str r.2 = some q.2)
    ranges parsed

/-! ## Claim theorems -/

/-- C5: `parse_czech_timestamp` is claimed total (malformed input,
impossible calendar dates included, yields absent) — but the hour-24
branch constructs the base date outside the `try`, so
`"31.02.2026 24:00"` raises `ValueError`; the hour-24 normalisation
itself behaves as documented. -/
theorem C5_parse_czech_timestamp_bug :
    parse_czech_timestamp (some "31.02.2026 24:00") = .error .valueError ∧
    parse_czech_timestamp (some "31.02.2026 12:00") = .ok none ∧
    parse_czech_timestamp (some "14.02.2026 24:00") = .ok (some ⟨2026, 2, 15, 0, 0⟩) ∧
    parse_czech_timestamp (some "15.02.2026 00:00") = .ok (some ⟨2026, 2, 15, 0, 0⟩) :=
  ⟨rfl, rfl, rfl, rfl⟩

/-- C1 (counterexample): a cached, non-expired session with no live
browser context still triggers the login collaborator, and the returned
session is the fresh login (`reused = false`), contrary to the claim
that a present, non-expired state alone suffices for reuse. -/
theorem C1_counterexample :
    is_expired 21600 ⟨[], 0, some 100⟩ 50 = false ∧
    (ensure_session 21600 50 (some ⟨[], 0, some 100⟩) false ⟨[], false, true⟩).1 = true ∧
    (ensure_session 21600 50 (some ⟨[], 0, some 100⟩) false ⟨[], false, true⟩).2.reused = false :=
  ⟨rfl, rfl, rfl⟩

/-- C1 (amended): with a cached non-expired session *and* an open live
browser context, `ensure_session` performs no login and returns the
stored cookies with `reused = true`. -/
theorem C1_reuse_with_live_context (ttl now : Int) (s : SessionState)
    (login : AuthSession) (h1 : is_expired ttl s now = false) :
    ensure_session ttl now (some s) true login = (false, ⟨s.cookies, true, true⟩) := by
  simp [ensure_session, h1]

/-- C1 witness: the amended reuse theorem at a concrete non-expired
state. -/
theorem C1_reuse_witness :
    ensure_session 21600 50 (some ⟨[], 0, some 100⟩) true ⟨[], false, true⟩ =
      (false, ⟨[], true, true⟩) :=
  C1_reuse_with_live_context 21600 50 ⟨[], 0, some 100⟩ ⟨[], false, true⟩ rfl

/-- C3 (counterexample): the whole-day window `00:00-24:00` is claimed
to be treated as `[start, end-of-day]` inclusive, hence low tariff at
noon — but the code's sentinel branch requires the start to differ from
midnight, so the window matches no time at all. -/
theorem C3_counterexample :
    claimIsLowTariff 43200 [("00:00", "24:00")] = true ∧
    is_in_low_tariff 43200 [("00:00", "24:00")] = .ok false :=
  ⟨rfl, rfl⟩

/-- C6 (counterexample): a session file holding valid JSON whose top
level is a list (not an object) makes `load` raise `AttributeError` at
`payload.get`, contrary to the claim that `load` never raises. -/
theorem C6_counterexample :
    SessionStore.load (fun _ => none) (.content (Json.arr [])) = .error .attributeError :=
  rfl

/-- C2 (counterexample): a session-expired error on one report is
handled by the six-report loop exactly like a generic fetch failure —
the loop's outcome for a fetcher raising the session-expired error is
identical to that for a fetcher raising the generic error, the failing
report is merely excluded, and the remaining five are returned; nothing
is propagated to the caller. -/
theorem C2_counterexample :
    fetch_all_assemblies
      (fun aid _ _ => if aid = -1003 then .error .sessionExpired
                      else .ok (Json.obj [("hasData", Json.bool true)])) ⟨2026, 2, 14⟩ =
    fetch_all_assemblies
      (fun aid _ _ => if aid = -1003 then .error .fetchError
                      else .ok (Json.obj [("hasData", Json.bool true)])) ⟨2026, 2, 14⟩ ∧
    ((fetch_all_assemblies
      (fun aid _ _ => if aid = -1003 then .error .sessionExpired
                      else .ok (Json.obj [("hasData", Json.bool true)])) ⟨2026, 2, 14⟩).1.map
        Prod.fst =
      ["profile_consumption_reactive", "profile_production_reactive", "daily_consumption",
       "daily_production", "daily_registers"]) :=
  ⟨rfl, rfl⟩

/-- C4 (counterexample): with the default retry budget of 3, a
permanently-failing `profile_all` fetch is invoked exactly once by the
six-report loop — not `max_retries` times — before the report is
excluded; the other five reports still appear. -/
theorem C4_counterexample :
    ({} : OrchestratorConfig).max_retries = 3 ∧
    callCount (-1003)
      (fetch_all_assemblies
        (fun aid _ _ => if aid = -1003 then .error .fetchError
                        else .ok (Json.obj [("hasData", Json.bool true)])) ⟨2026, 2, 14⟩).2 = 1 ∧
    jsonLookup
      (fetch_all_assemblies
        (fun aid _ _ => if aid = -1003 then .error .fetchError
                        else .ok (Json.obj [("hasData", Json.bool true)])) ⟨2026, 2, 14⟩).1
      "profile_all" = none ∧
    ((fetch_all_assemblies
        (fun aid _ _ => if aid = -1003 then .error .fetchError
                        else .ok (Json.obj [("hasData", Json.bool true)])) ⟨2026, 2, 14⟩).1.map
      Prod.fst =
      ["profile_consumption_reactive", "profile_production_reactive", "daily_consumption",
       "daily_production", "daily_registers"]) ∧
    (1 : Nat) ≠ 3 :=
  ⟨rfl, rfl, rfl, rfl, by decide⟩

/-- C9: `save` places no lower bound on the computed expiry — when the
minimum positive per-cookie expiry is at or before the save instant,
the persisted state's `expires_at` equals that minimum and the state is
already expired at the moment it is saved. -/
theorem C9_save_can_expire_immediately (ttl now m : Int) (cookies : List Json)
    (es : List Int) (h1 : cookieExpiries cookies = .ok es) (h2 : es.min? = some m)
    (h3 : m ≤ now) :
    SessionStore.save ttl cookies now = .ok ⟨cookies, now, some m⟩ ∧
    is_expired ttl ⟨cookies, now, some m⟩ now = true := by
  refine ⟨?_, ?_⟩
  · simp [SessionStore.save, compute_expiry, h1, h2, Except.map]
  · simp [is_expired]
    omega

/-- C9 witness: a cookie whose expiry epoch 5 precedes the save
instant 10 yields a state that is expired the moment it is saved. -/
theorem C9_save_witness :
    SessionStore.save 21600 [Json.obj [("expires", Json.num 5)]] 10 =
      .ok ⟨[Json.obj [("expires", Json.num 5)]], 10, some 5⟩ ∧
    is_expired 21600 ⟨[Json.obj [("expires", Json.num 5)]], 10, some 5⟩ 10 = true :=
  C9_save_can_expire_immediately 21600 10 5 [Json.obj [("expires", Json.num 5)]] [5]
    rfl rfl (by decide)

/-- C6 (amended): `load` returns absent for a missing file, an
unreadable file, or a file whose bytes decode as text but are not valid
JSON, and never raises on a decoded JSON *object*, returning a state
exactly when the object carries a cookie list and a parseable
`created_at` and absent otherwise; but a decoded payload that is not an
object raises `AttributeError`, and a readable file whose bytes are not
valid UTF-8 raises `UnicodeDecodeError` (which the `except` clause does
not catch). -/
theorem C6_load_behaviour (fromIso : String → Option Int) :
    (SessionStore.load fromIso .missing = .ok none ∧
     SessionStore.load fromIso .ioError = .ok none ∧
     SessionStore.load fromIso .decodeError = .ok none) ∧
    (∀ kvs, ∃ r, SessionStore.load fromIso (.content (.obj kvs)) = .ok r) ∧
    (∀ kvs cs ca,
      jsonLookup kvs "cookies" = some (.arr cs) →
      parse_datetime fromIso (jsonLookup kvs "created_at") = some ca →
      SessionStore.load fromIso (.content (.obj kvs)) =
        .ok (some ⟨cs, ca, parse_datetime fromIso (jsonLookup kvs "expires_at")⟩)) ∧
    (∀ kvs,
      ((∀ cs, jsonLookup kvs "cookies" ≠ some (.arr cs)) ∨
        parse_datetime fromIso (jsonLookup kvs "created_at") = none) →
      SessionStore.load fromIso (.content (.obj kvs)) = .ok none) ∧
    (∀ j, (∀ kvs, j ≠ .obj kvs) →
      SessionStore.load fromIso (.content j) = .error .attributeError) ∧
    SessionStore.load fromIso .invalidUtf8 = .error .unicodeDecodeError := by
  refine ⟨⟨rfl, rfl, rfl⟩, ?_, ?_, ?_, ?_, rfl⟩
  · intro kvs
    simp only [SessionStore.load]
    split
    · exact ⟨_, rfl⟩
    · exact ⟨_, rfl⟩
  · intro kvs cs ca h1 h2
    simp only [SessionStore.load, h1, h2]
  · intro kvs h
    simp only [SessionStore.load]
    rcases h with hcook | hcreated
    · cases hc : jsonLookup kvs "cookies" with
      | none => rfl
      | some v =>
        cases v with
        | arr cs => exact absurd hc (hcook cs)
        | null => rfl
        | bool b => rfl
        | num n => rfl
        | str s => rfl
        | obj kvs2 => rfl
    · rw [hcreated]
      cases hc : jsonLookup kvs "cookies" with
      | none => rfl
      | some v =>
        cases v with
        | arr _ => rfl
        | null => rfl
        | bool b => rfl
        | num n => rfl
        | str s => rfl
        | obj kvs2 => rfl
  · intro j hj
    cases j with
    | obj kvs => exact absurd rfl (hj kvs)
    | null => rfl
    | bool b => rfl
    | num n => rfl
    | str s => rfl
    | arr xs => rfl

/-- C6 witness: the amended theorem applied to concrete object payloads
— one carrying a cookie list and a parseable `created_at` (a state is
returned), one carrying neither (absent is returned). -/
theorem C6_load_witness :
    SessionStore.load (fun _ => some 0)
      (.content (.obj [("cookies", Json.arr []), ("created_at", Json.str "t")])) =
      .ok (some ⟨[], 0, none⟩) ∧
    SessionStore.load (fun _ => some 0) (.content (.obj [])) = .ok none :=
  ⟨(C6_load_behaviour (fun _ => some 0)).2.2.1
    [("cookies", Json.arr []), ("created_at", Json.str "t")] [] 0 rfl rfl,
   (C6_load_behaviour (fun _ => some 0)).2.2.2.1 []
    (Or.inl fun cs h => Option.noConfusion h)⟩

/-- The `ParsesTo` relation holds for empty schedules. -/
theorem parsesTo_nil : ParsesTo [] [] := List.Forall₂.nil

/-- Extend a `ParsesTo` witness by one window. -/
theorem parsesTo_cons {r : String × String} {q : Nat × Nat}
    {ranges : List (String × String)} {parsed : List (Nat × Nat)}
    (h1 : time_from_str r.1 = some q.1) (h2 : time_from_str r.2 = some q.2)
    (h : ParsesTo ranges parsed) : ParsesTo (r :: ranges) (q :: parsed) :=
  List.Forall₂.cons ⟨h1, h2⟩ h

/-- Evaluation of `_is_in_low_tariff` over a fully-parseable schedule returns the
disjunction of the per-window tests. -/
theorem low_tariff_eq_any (nowTod : Nat) :
    ∀ {ranges : List (String × String)} {parsed : List (Nat × Nat)},
    ParsesTo ranges parsed →
    is_in_low_tariff nowTod ranges = .ok (parsed.any (windowHit nowTod)) := by
  intro ranges parsed h
  induction h with
  | nil => rfl
  | cons hr hrest ih =>
    rename_i a b l1 l2
    obtain ⟨a1, a2⟩ := a
    obtain ⟨b1, b2⟩ := b
    obtain ⟨h1, h2⟩ := hr
    simp only [is_in_low_tariff, h1, h2, List.any_cons, windowHit]
    by_cases hc : b2 = 0 ∧ b1 ≠ 0
    · by_cases hn : b1 ≤ nowTod
      · simp [hc, hn]
      · simp [hc, hn, ih]
    · by_cases hn : b1 ≤ nowTod ∧ nowTod < b2
      · simp [hc, hn]
      · simp [hc, hn, ih]

/-- C3 (amended): over a fully-parseable schedule, `_is_in_low_tariff`
is true exactly when `nowTod` lies in `[start, end)` of some window, or
in `[start, end-of-day]` for a window whose parsed end is midnight and
whose parsed start is not — so an end of `00:00` receives the same
sentinel treatment as `24:00`, and a window whose start and end both
parse to midnight (such as `00:00-24:00`) matches no time at all. -/
theorem C3_low_tariff_semantics (nowTod : Nat) (ranges : List (String × String))
    (parsed : List (Nat × Nat)) (h : ParsesTo ranges parsed) :
    ∃ b, is_in_low_tariff nowTod ranges = .ok b ∧
      (b = true ↔ ∃ q ∈ parsed,
        (q.2 = 0 ∧ q.1 ≠ 0 ∧ q.1 ≤ nowTod) ∨ (q.1 ≤ nowTod ∧ nowTod < q.2)) := by
  refine ⟨parsed.any (windowHit nowTod), low_tariff_eq_any nowTod h, ?_⟩
  simp only [List.any_eq_true]
  refine exists_congr fun q => and_congr_right fun _ => ?_
  by_cases hc : q.2 = 0 ∧ q.1 ≠ 0
  · simp only [windowHit, if_pos hc, decide_eq_true_eq]
    omega
  · simp only [windowHit, if_neg hc, decide_eq_true_eq]
    omega

/-- Over a fully-parseable schedule the boundary loop of
`_find_next_switch` collects exactly the spec's boundary set. -/
theorem collectBoundaries_eq :
    ∀ {ranges : List (String × String)} {parsed : List (Nat × Nat)},
    ParsesTo ranges parsed → collectBoundaries ranges = .ok (boundariesSpec parsed) := by
  intro ranges parsed h
  induction h with
  | nil => rfl
  | cons hr hrest ih =>
    rename_i a b l1 l2
    obtain ⟨a1, a2⟩ := a
    obtain ⟨b1, b2⟩ := b
    obtain ⟨h1, h2⟩ := hr
    simp only [collectBoundaries, h1, h2, ih, boundariesSpec, List.flatMap_cons, Except.map]
    by_cases hz : b2 = 0
    · simp [hz, boundariesSpec]
    · simp [hz, boundariesSpec]

/-- In a `≤`-sorted list, `find?` with the test `n < ·` returns the
least element strictly greater than `n`. -/
theorem find_first_gt_sorted {l : List Nat} (hs : l.Sorted (· ≤ ·)) {n m : Nat}
    (hf : l.find? (fun b => n < b) = some m) :
    m ∈ l ∧ n < m ∧ ∀ b ∈ l, n < b → m ≤ b := by
  induction l with
  | nil => cases hf
  | cons x xs ih =>
    rw [List.sorted_cons] at hs
    obtain ⟨hle, hsx⟩ := hs
    by_cases hx : n < x
    · rw [List.find?_cons_of_pos _ (by simpa using hx)] at hf
      cases hf
      refine ⟨List.mem_cons_self _ _, hx, ?_⟩
      intro b hb _
      rcases List.mem_cons.mp hb with rfl | hb
      · exact le_refl _
      · exact hle b hb
    · rw [List.find?_cons_of_neg _ (by simpa using hx)] at hf
      obtain ⟨hm, hnm, hmin⟩ := ih hsx hf
      refine ⟨List.mem_cons_of_mem _ hm, hnm, ?_⟩
      intro b hb hnb
      rcases List.mem_cons.mp hb with rfl | hb
      · exact absurd hnb hx
      · exact hmin b hb hnb

/-- C7: `_find_next_switch` returns the earliest boundary (window starts
plus non-midnight window ends) strictly after now's time of day on
today's date; when none remains today it returns the earliest boundary
on tomorrow's date, or midnight tomorrow when the boundary set is
empty. -/
theorem C7_next_switch (day : Int) (nowTod : Nat) (ranges : List (String × String))
    (parsed : List (Nat × Nat)) (h : ParsesTo ranges parsed) :
    ((∃ b ∈ boundariesSpec parsed, nowTod < b) →
      ∃ m, find_next_switch day nowTod ranges = .ok (day, m) ∧
        m ∈ boundariesSpec parsed ∧ nowTod < m ∧
        (∀ b ∈ boundariesSpec parsed, nowTod < b → m ≤ b)) ∧
    ((∀ b ∈ boundariesSpec parsed, b ≤ nowTod) → boundariesSpec parsed ≠ [] →
      ∃ m, find_next_switch day nowTod ranges = .ok (day + 1, m) ∧
        m ∈ boundariesSpec parsed ∧ (∀ b ∈ boundariesSpec parsed, m ≤ b)) ∧
    (boundariesSpec parsed = [] → find_next_switch day nowTod ranges = .ok (day + 1, 0)) := by
  have hcb := collectBoundaries_eq h
  have hperm : List.Perm ((boundariesSpec parsed).insertionSort (· ≤ ·))
      (boundariesSpec parsed) :=
    List.perm_insertionSort _ _
  have hsort : ((boundariesSpec parsed).insertionSort (· ≤ ·)).Sorted (· ≤ ·) :=
    List.sorted_insertionSort _ _
  refine ⟨?_, ?_, ?_⟩
  · rintro ⟨b0, hb0, hlt⟩
    cases hf : ((boundariesSpec parsed).insertionSort (· ≤ ·)).find? (fun b => nowTod < b) with
    | none =>
      rw [List.find?_eq_none] at hf
      exact absurd (by simpa using hlt) (hf b0 (hperm.mem_iff.mpr hb0))
    | some m =>
      obtain ⟨hm, hnm, hmin⟩ := find_first_gt_sorted hsort hf
      refine ⟨m, ?_, hperm.mem_iff.mp hm, hnm, ?_⟩
      · simp only [find_next_switch, hcb, hf]
      · intro b hb hnb
        exact hmin b (hperm.mem_iff.mpr hb) hnb
  · intro hall hne
    cases hf : ((boundariesSpec parsed).insertionSort (· ≤ ·)).find? (fun b => nowTod < b) with
    | some m =>
      obtain ⟨hm, hnm, _⟩ := find_first_gt_sorted hsort hf
      exact absurd hnm (Nat.not_lt.mpr (hall m (hperm.mem_iff.mp hm)))
    | none =>
      cases hS : (boundariesSpec parsed).insertionSort (· ≤ ·) with
      | nil =>
        have h0 := hperm
        rw [hS] at h0
        exact absurd h0.symm.eq_nil hne
      | cons m rest =>
        have hf2 := hf
        rw [hS] at hf2
        refine ⟨m, ?_, ?_, ?_⟩
        · simp only [find_next_switch, hcb, hS, hf2]
        · exact hperm.mem_iff.mp (hS ▸ List.mem_cons_self m rest)
        · intro b hb
          have hb2 : b ∈ m :: rest := hS ▸ hperm.mem_iff.mpr hb
          rw [hS, List.sorted_cons] at hsort
          rcases List.mem_cons.mp hb2 with rfl | hb2
          · exact le_refl _
          · exact hsort.1 b hb2
  · intro hB
    have hS : (boundariesSpec parsed).insertionSort (· ≤ ·) = [] := by
      rw [hB]
      rfl
    simp only [find_next_switch, hcb, hS, List.find?_nil]

/-- C3 witness: the amended semantics at 07:59 over the windows
`00:00-08:00` and `20:00-24:00`. -/
theorem C3_witness :
    ∃ b, is_in_low_tariff 28740 [("00:00", "08:00"), ("20:00", "24:00")] = .ok b ∧
      (b = true ↔ ∃ q ∈ [((0 : Nat), (28800 : Nat)), (72000, 0)],
        (q.2 = 0 ∧ q.1 ≠ 0 ∧ q.1 ≤ 28740) ∨ (q.1 ≤ 28740 ∧ 28740 < q.2)) :=
  C3_low_tariff_semantics 28740 [("00:00", "08:00"), ("20:00", "24:00")]
    [(0, 28800), (72000, 0)]
    (parsesTo_cons rfl rfl (parsesTo_cons rfl rfl parsesTo_nil))

/-- C7 witness: for the documented schedule, the next switch after 03:00
is the earliest boundary strictly after it (08:00, i.e. 28800 s) on the
same day. -/
theorem C7_witness :
    ∃ m, find_next_switch 0 10800
        [("00:00", "08:00"), ("09:00", "12:00"), ("13:00", "15:00"),
         ("16:00", "19:00"), ("20:00", "24:00")] = .ok (0, m) ∧
      m ∈ boundariesSpec
        [(0, 28800), (32400, 43200), (46800, 54000), (57600, 68400), (72000, 0)] ∧
      10800 < m ∧
      (∀ b ∈ boundariesSpec
        [(0, 28800), (32400, 43200), (46800, 54000), (57600, 68400), (72000, 0)],
        10800 < b → m ≤ b) :=
  (C7_next_switch 0 10800
    [("00:00", "08:00"), ("09:00", "12:00"), ("13:00", "15:00"),
     ("16:00", "19:00"), ("20:00", "24:00")]
    [(0, 28800), (32400, 43200), (46800, 54000), (57600, 68400), (72000, 0)]
    (parsesTo_cons rfl rfl (parsesTo_cons rfl rfl (parsesTo_cons rfl rfl
      (parsesTo_cons rfl rfl (parsesTo_cons rfl rfl parsesTo_nil)))))).1
    ⟨28800, by decide, by decide⟩

/-- A schedule containing a window with an unparseable endpoint makes
the boundary-collection loop raise `ValueError`. -/
theorem collectBoundaries_malformed :
    ∀ (ranges : List (String × String)),
    (∃ r ∈ ranges, time_from_str r.1 = none ∨ time_from_str r.2 = none) →
    collectBoundaries ranges = .error .valueError := by
  intro ranges hex
  induction ranges with
  | nil => simp at hex
  | cons r rest ih =>
    obtain ⟨a1, a2⟩ := r
    obtain ⟨r0, hr0, hbad⟩ := hex
    cases h1 : time_from_str a1 with
    | none => simp only [collectBoundaries]; rw [h1]
    | some v1 =>
      cases h2 : time_from_str a2 with
      | none => simp only [collectBoundaries]; rw [h1, h2]
      | some v2 =>
        have hmem : r0 ∈ rest := by
          rcases List.mem_cons.mp hr0 with heq | hmem
          · exfalso
            rw [heq] at hbad
            dsimp only at hbad
            rw [h1, h2] at hbad
            rcases hbad with hb | hb <;> cases hb
          · exact hmem
        have herr := ih ⟨r0, hmem, hbad⟩
        simp only [collectBoundaries]
        rw [h1, h2, herr]
        rfl

/-- Evaluation of `_is_in_low_tariff` either raises `ValueError` or returns a
boolean. -/
theorem low_tariff_ok_or_valueError (now : Nat) :
    ∀ ranges, is_in_low_tariff now ranges = .error .valueError ∨
      ∃ b, is_in_low_tariff now ranges = .ok b := by
  intro ranges
  induction ranges with
  | nil => exact Or.inr ⟨false, rfl⟩
  | cons r rest ih =>
    obtain ⟨a1, a2⟩ := r
    cases h1 : time_from_str a1 with
    | none =>
      refine Or.inl ?_
      simp only [is_in_low_tariff]
      rw [h1]
    | some v1 =>
      cases h2 : time_from_str a2 with
      | none =>
        refine Or.inl ?_
        simp only [is_in_low_tariff]
        rw [h1, h2]
      | some v2 =>
        simp only [is_in_low_tariff, h1, h2]
        split_ifs
        · exact Or.inr ⟨true, rfl⟩
        · exact ih
        · exact Or.inr ⟨true, rfl⟩
        · exact ih

/-- C10: `_parse_time_ranges` keeps every trimmed, nonempty,
dash-containing segment regardless of whether its endpoints are
well-formed times, and a schedule containing such a malformed window
makes `parse_hdo_signals` raise `ValueError` when it evaluates the
current tariff and next switch. -/
theorem C10_malformed_segment_raises :
    (∀ (casy part : String), part ∈ pySplitChar casy ';' →
      pyStrip part ≠ "" → (pyStrip part).data.contains '-' = true →
      (pyStrip (splitOnce (pyStrip part) '-').1, pyStrip (splitOnce (pyStrip part) '-').2)
        ∈ parse_time_ranges casy) ∧
    (∀ (sig : SignalEntry) (rest : List SignalEntry) (casy : String) (day : Int)
        (nowTod : Nat),
      sig.casy = some casy → casy ≠ "" →
      (∃ r ∈ parse_time_ranges casy,
        time_from_str r.1 = none ∨ time_from_str r.2 = none) →
      parse_hdo_signals ⟨some (sig :: rest)⟩ day nowTod = .error .valueError) := by
  constructor
  · intro casy part hp h2 h3
    refine List.mem_filterMap.mpr ⟨part, hp, ?_⟩
    simp only [h2]
    simp only [List.contains] at h3
    simp [List.elem_iff.mp h3]
  · intro sig rest casy day nowTod hsig hne hex
    have herr := collectBoundaries_malformed (parse_time_ranges casy) hex
    simp only [parse_hdo_signals, hsig, Option.getD_some, if_neg hne]
    rcases low_tariff_ok_or_valueError nowTod (parse_time_ranges casy) with hE | ⟨b, hb⟩
    · rw [hE]
    · rw [hb]
      simp only [find_next_switch, herr]


/-- One loop iteration is unchanged when every exception the fetcher
raises is replaced by the generic fetch failure: the loop inspects only
whether a fetch succeeded, never which exception it raised. -/
theorem fetchStep_mask (f : Fetcher) (df dt : String) (cfg : AssemblyConfig) :
    fetchStep (maskErrors f) df dt cfg = fetchStep f df dt cfg := by
  cases h1 : f cfg.id df dt with
  | error e =>
    have hm : maskErrors f cfg.id df dt = .error .fetchError := by
      simp [maskErrors, h1]
    simp [fetchStep, fetch_assembly_with_fallback, h1, hm]
  | ok p =>
    have hm : maskErrors f cfg.id df dt = .ok p := by
      simp [maskErrors, h1]
    simp only [fetchStep, fetch_assembly_with_fallback, h1, hm]
    cases p
    case null => rfl
    all_goals by_cases hfb : cfg.fallback_yesterday = true
    all_goals simp only [hfb, Bool.false_eq_true, if_true, if_false, ite_true, ite_false]
    all_goals try rfl
    rename_i kvs
    by_cases hhd : pyTruthy ((jsonLookup kvs "hasData").getD (Json.bool true)) = true <;>
      simp only [pyGet, hhd, Bool.false_eq_true, if_true, if_false, ite_true, ite_false] <;>
      try rfl
    cases hw : (pySplitWs df).head? with
      | none => rfl
      | some w =>
        dsimp only
        cases hd : parseDMY w with
        | none => rfl
        | some dateObj =>
          dsimp only
          by_cases hone : dateObj = ⟨1, 1, 1⟩ <;>
            simp only [hone, if_true, if_false, ite_true, ite_false] <;>
            try rfl
          cases h2 : f cfg.id (fmtDMY (prevDay dateObj)) df with
            | error e2 =>
              have hm2 : maskErrors f cfg.id (fmtDMY (prevDay dateObj)) df =
                  .error .fetchError := by simp [maskErrors, h2]
              simp [hm2, h2]
            | ok p2 =>
              have hm2 : maskErrors f cfg.id (fmtDMY (prevDay dateObj)) df = .ok p2 := by
                simp [maskErrors, h2]
              simp [hm2, h2]

/-- Every fetch invocation made on behalf of one config targets that
config's assembly id. -/
theorem fawf_calls_id (f : Fetcher) (cfg : AssemblyConfig) (df dt : String) :
    ∀ c ∈ (fetch_assembly_with_fallback f cfg df dt).2, c.assemblyId = cfg.id := by
  intro c hc
  simp only [fetch_assembly_with_fallback] at hc
  repeat' split at hc
  all_goals simp only [List.mem_singleton, List.mem_cons, List.not_mem_nil, or_false] at hc
  all_goals first
    | (subst hc; rfl)
    | (rcases hc with rfl | rfl <;> rfl)

/-- A loop iteration makes exactly the fetch invocations of its
fetch-with-fallback call. -/
theorem fetchStep_calls (f : Fetcher) (df dt : String) (cfg : AssemblyConfig) :
    (fetchStep f df dt cfg).2 = (fetch_assembly_with_fallback f cfg df dt).2 := by
  rcases hf : fetch_assembly_with_fallback f cfg df dt with ⟨res, calls⟩
  cases res with
  | error e => simp [fetchStep, hf]
  | ok p =>
    simp only [fetchStep, hf]
    rcases hi : includePayload p with e | b
    · rfl
    · cases b <;> rfl

/-- A loop iteration produces an entry exactly when the
fetch-with-fallback call returned a payload that passes the `hasData`
inclusion test, and the entry is keyed by the config's name. -/
theorem step_some_iff (f : Fetcher) (df dt : String) (cfg : AssemblyConfig)
    (n : String) (p : Json) :
    (fetchStep f df dt cfg).1 = some (n, p) ↔
      (n = cfg.name ∧ ∃ calls,
        fetch_assembly_with_fallback f cfg df dt = (.ok p, calls) ∧
        includePayload p = .ok true) := by
  rcases hf : fetch_assembly_with_fallback f cfg df dt with ⟨res, calls⟩
  cases res with
  | error e =>
    simp only [fetchStep, hf]
    constructor
    · intro h
      cases h
    · rintro ⟨-, calls2, h, -⟩
      cases h
  | ok q =>
    simp only [fetchStep, hf]
    rcases hi : includePayload q with e | b
    · constructor
      · intro h
        cases h
      · rintro ⟨-, calls2, h, hinc⟩
        cases h
        rw [hi] at hinc
        cases hinc
    · cases b
      · constructor
        · intro h
          cases h
        · rintro ⟨-, calls2, h, hinc⟩
          cases h
          rw [hi] at hinc
          cases hinc
      · constructor
        · intro h
          cases h
          exact ⟨rfl, calls, rfl, hi⟩
        · rintro ⟨rfl, calls2, h, -⟩
          cases h
          rfl

/-- The six report names are pairwise distinct. -/
theorem assembly_names_nodup :
    (ASSEMBLY_CONFIGS.map AssemblyConfig.name).Nodup := by decide

/-- C8: for every one of the six report kinds, a successfully fetched
payload enters the per-cycle result map exactly when it is truthy and
carries a truthy `hasData` field; a fetcher whose every call succeeds
but returns `hasData = false` payloads yields an empty result map. -/
theorem C8_has_data_filter (fetch : Fetcher) (today : Date) (cfg : AssemblyConfig)
    (hc : cfg ∈ ASSEMBLY_CONFIGS) :
    ((∃ p, (cfg.name, p) ∈ (fetch_all_assemblies fetch today).1) ↔
      (∃ p calls,
        fetch_assembly_with_fallback fetch cfg (dateFromOf today) (dateToOf today) =
          (.ok p, calls) ∧
        includePayload p = .ok true)) ∧
    (∃ g : Fetcher, (∀ a x y, ∃ p, g a x y = .ok p) ∧
      (fetch_all_assemblies g ⟨2026, 2, 14⟩).1 = []) := by
  constructor
  · constructor
    · rintro ⟨p, hp⟩
      obtain ⟨cfg2, hc2, hstep⟩ := List.mem_filterMap.mp hp
      obtain ⟨hname, calls, hfa, hinc⟩ := (step_some_iff _ _ _ _ _ _).mp hstep
      have : cfg2 = cfg :=
        List.inj_on_of_nodup_map assembly_names_nodup hc2 hc hname.symm
      subst this
      exact ⟨p, calls, hfa, hinc⟩
    · rintro ⟨p, calls, hfa, hinc⟩
      refine ⟨p, List.mem_filterMap.mpr ⟨cfg, hc, ?_⟩⟩
      exact (step_some_iff _ _ _ _ _ _).mpr ⟨rfl, calls, hfa, hinc⟩
  · exact ⟨fun _ _ _ => .ok (Json.obj [("hasData", Json.bool false)]),
      fun _ _ _ => ⟨_, rfl⟩, rfl⟩

/-- C2 (amended): the six-report loop catches the session-expired
error exactly like a generic fetch failure — its outcome is unchanged
when every exception the fetcher raises is replaced by the generic
one, so session expiry is never propagated to the caller (the distinct
re-auth handling lives only in `_fetch_with_retry`, which the loop does
not call). -/
theorem C2_expiry_swallowed (fetch : Fetcher) (today : Date) :
    fetch_all_assemblies fetch today = fetch_all_assemblies (maskErrors fetch) today := by
  have h : ∀ cfg, fetchStep (maskErrors fetch) (dateFromOf today) (dateToOf today) cfg =
      fetchStep fetch (dateFromOf today) (dateToOf today) cfg :=
    fun cfg => fetchStep_mask fetch (dateFromOf today) (dateToOf today) cfg
  simp only [fetch_all_assemblies, h]

/-- The retry loop of `_fetch_with_retry` on a fetch failing every
attempt with the generic error runs through its whole fuel and returns
`None`. -/
theorem retryFrom_all_fail (fetch : Nat → Except PyExc Json)
    (onExpired : Option Json × Nat) (h : ∀ i, fetch i = .error .fetchError) :
    ∀ (fuel attempt : Nat), retryFrom fetch onExpired attempt fuel = (none, fuel) := by
  intro fuel
  induction fuel with
  | zero => intro attempt; rfl
  | succ n ih =>
    intro attempt
    simp only [retryFrom, h attempt, ih (attempt + 1)]

/-- C4 (amended): the configured retry budget is honoured only by
`_fetch_with_retry`, which attempts a permanently-failing fetch exactly
`max_retries` times before returning absent; the six-report loop does
not use it — there a permanently-failing report fetch is invoked
exactly once, the report is excluded from the result map, and the other
five reports still appear. -/
theorem C4_no_retry_in_loop :
    (∀ (n : Nat) (fetch fetch2 : Nat → Except PyExc Json) (reauthOk : Bool),
      (∀ i, fetch i = .error .fetchError) →
      fetch_with_retry n fetch fetch2 reauthOk = (none, n)) ∧
    (∀ (fetch : Fetcher) (today : Date),
      (∀ x y, fetch (-1003) x y = .error .fetchError) →
      callCount (-1003) (fetch_all_assemblies fetch today).2 = 1 ∧
      (∀ p, ("profile_all", p) ∉ (fetch_all_assemblies fetch today).1)) ∧
    (∀ (fetch : Fetcher) (today : Date),
      (∀ x y, fetch (-1003) x y = .error .fetchError) →
      (∀ a x y, a ≠ -1003 → fetch a x y = .ok (Json.obj [("hasData", Json.bool true)])) →
      (fetch_all_assemblies fetch today).1.map Prod.fst =
        ["profile_consumption_reactive", "profile_production_reactive",
         "daily_consumption", "daily_production", "daily_registers"]) := by
  refine ⟨?_, ?_, ?_⟩
  · intro n fetch fetch2 reauthOk h
    simp only [fetch_with_retry, retryFrom_all_fail fetch _ h n 1]
  · intro fetch today h
    have hzero : ∀ cfg : AssemblyConfig, cfg.id ≠ -1003 →
        callCount (-1003) (fetchStep fetch (dateFromOf today) (dateToOf today) cfg).2 = 0 := by
      intro cfg hne
      rw [callCount, List.length_eq_zero, List.filter_eq_nil_iff]
      intro c hcmem
      rw [fetchStep_calls] at hcmem
      have hid := fawf_calls_id fetch cfg (dateFromOf today) (dateToOf today) c hcmem
      simp [hid, hne]
    have hstep : fetchStep fetch (dateFromOf today) (dateToOf today)
        ⟨-1003, "profile_all", false⟩ =
        (none, [⟨-1003, dateFromOf today, dateToOf today⟩]) := by
      simp only [fetchStep, fetch_assembly_with_fallback, h (dateFromOf today) (dateToOf today)]
    constructor
    · simp only [fetch_all_assemblies, ASSEMBLY_CONFIGS, List.flatMap_cons, List.flatMap_nil,
        List.append_nil, callCount, List.filter_append, List.length_append]
      rw [← callCount, ← callCount, ← callCount, ← callCount, ← callCount, ← callCount]
      rw [hzero ⟨-1012, "profile_consumption_reactive", false⟩ (by decide),
          hzero ⟨-1011, "profile_production_reactive", false⟩ (by decide),
          hzero ⟨-1021, "daily_consumption", false⟩ (by decide),
          hzero ⟨-1022, "daily_production", false⟩ (by decide),
          hzero ⟨-1027, "daily_registers", true⟩ (by decide)]
      rw [hstep]
      rfl
    · intro p hp
      obtain ⟨cfg2, hc2, hs2⟩ := List.mem_filterMap.mp hp
      obtain ⟨hname, calls, hfa, hinc⟩ := (step_some_iff _ _ _ _ _ _).mp hs2
      have hcfg : cfg2 = ⟨-1003, "profile_all", false⟩ :=
        List.inj_on_of_nodup_map assembly_names_nodup hc2 (by decide) hname.symm
      subst hcfg
      rw [show fetch_assembly_with_fallback fetch ⟨-1003, "profile_all", false⟩
            (dateFromOf today) (dateToOf today) =
          (.error .fetchError, [⟨-1003, dateFromOf today, dateToOf today⟩]) from by
        simp only [fetch_assembly_with_fallback, h (dateFromOf today) (dateToOf today)]] at hfa
      cases hfa
  · intro fetch today h1 h2
    have e03 : (fetchStep fetch (dateFromOf today) (dateToOf today)
        ⟨-1003, "profile_all", false⟩).1 = none := by
      simp only [fetchStep, fetch_assembly_with_fallback,
        h1 (dateFromOf today) (dateToOf today)]
    have e12 : (fetchStep fetch (dateFromOf today) (dateToOf today)
        ⟨-1012, "profile_consumption_reactive", false⟩).1 =
        some ("profile_consumption_reactive", Json.obj [("hasData", Json.bool true)]) := by
      simp only [fetchStep, fetch_assembly_with_fallback,
        h2 (-1012) (dateFromOf today) (dateToOf today) (by decide)]
      rfl
    have e11 : (fetchStep fetch (dateFromOf today) (dateToOf today)
        ⟨-1011, "profile_production_reactive", false⟩).1 =
        some ("profile_production_reactive", Json.obj [("hasData", Json.bool true)]) := by
      simp only [fetchStep, fetch_assembly_with_fallback,
        h2 (-1011) (dateFromOf today) (dateToOf today) (by decide)]
      rfl
    have e21 : (fetchStep fetch (dateFromOf today) (dateToOf today)
        ⟨-1021, "daily_consumption", false⟩).1 =
        some ("daily_consumption", Json.obj [("hasData", Json.bool true)]) := by
      simp only [fetchStep, fetch_assembly_with_fallback,
        h2 (-1021) (dateFromOf today) (dateToOf today) (by decide)]
      rfl
    have e22 : (fetchStep fetch (dateFromOf today) (dateToOf today)
        ⟨-1022, "daily_production", false⟩).1 =
        some ("daily_production", Json.obj [("hasData", Json.bool true)]) := by
      simp only [fetchStep, fetch_assembly_with_fallback,
        h2 (-1022) (dateFromOf today) (dateToOf today) (by decide)]
      rfl
    have e27 : (fetchStep fetch (dateFromOf today) (dateToOf today)
        ⟨-1027, "daily_registers", true⟩).1 =
        some ("daily_registers", Json.obj [("hasData", Json.bool true)]) := by
      simp only [fetchStep, fetch_assembly_with_fallback,
        h2 (-1027) (dateFromOf today) (dateToOf today) (by decide)]
      rfl
    simp only [fetch_all_assemblies, ASSEMBLY_CONFIGS, List.filterMap_cons, e03, e12, e11,
      e21, e22, e27, List.filterMap_nil, List.map_cons, List.map_nil]

/-- C4 witness: the amended theorem at the default budget 3 and a
concrete fetcher failing only on `profile_all`. -/
theorem C4_witness :
    fetch_with_retry 3 (fun _ => .error .fetchError) (fun _ => .ok Json.null) false =
      (none, 3) ∧
    callCount (-1003)
      (fetch_all_assemblies
        (fun aid _ _ => if aid = -1003 then .error .fetchError
                        else .ok (Json.obj [("hasData", Json.bool true)])) ⟨2026, 2, 14⟩).2 = 1 :=
  ⟨C4_no_retry_in_loop.1 3 _ _ false (fun _ => rfl),
   (C4_no_retry_in_loop.2.1 _ ⟨2026, 2, 14⟩ (fun _ _ => rfl)).1⟩

/-- C8 witness: the inclusion criterion at a concrete all-succeeding
fetcher puts `profile_all` in the result map. -/
theorem C8_witness :
    ∃ p, ("profile_all", p) ∈
      (fetch_all_assemblies
        (fun _ _ _ => .ok (Json.obj [("hasData", Json.bool true)])) ⟨2026, 2, 14⟩).1 :=
  (C8_has_data_filter (fun _ _ _ => .ok (Json.obj [("hasData", Json.bool true)]))
      ⟨2026, 2, 14⟩ ⟨-1003, "profile_all", false⟩ (by decide)).1.mpr
    ⟨Json.obj [("hasData", Json.bool true)],
     [⟨-1003, dateFromOf ⟨2026, 2, 14⟩, dateToOf ⟨2026, 2, 14⟩⟩], rfl, rfl⟩

/-- C10 witness: the segment `ab-cd` contains a dash, is kept by the
range parser, and makes `parse_hdo_signals` raise `ValueError`. -/
theorem C10_witness :
    ("ab", "cd") ∈ parse_time_ranges "06:00-22:00;ab-cd" ∧
    parse_hdo_signals ⟨some [⟨some "EVV2", some "06:00-22:00;ab-cd"⟩]⟩ 0 0 =
      .error .valueError :=
  ⟨C10_malformed_segment_raises.1 "06:00-22:00;ab-cd" "ab-cd" (by decide) (by decide) rfl,
   C10_malformed_segment_raises.2 ⟨some "EVV2", some "06:00-22:00;ab-cd"⟩ []
     "06:00-22:00;ab-cd" 0 0 rfl (by decide) ⟨("ab", "cd"), by decide, Or.inl rfl⟩⟩
